import Mathlib

/-!
# Verification of the fission FUSE channel core (`volume.go`)

Shallow embedding of the message-pump core of the `fission` package:
the binary envelope codec (request-header decode, response encode),
the opcode dispatch unit of work, the buffer pool, the read pump's
error classification and termination protocol, and the unmount path.

Machine memory is modelled as `List Nat` of byte values; multi-byte
integer fields use the platform's native little-endian layout, made
explicit.  Stateful/concurrent parts (the read pump, the callbacks
wait group, the error channel) are modelled as a deterministic action
trace of the pump's own thread, plus a labelled transition system for
the concurrent quiescence argument.
-/

namespace Fission

/-! ## Byte-level utilities (native little-endian layout) -/

/-- Read a native-order (little-endian) `uint32` from the front of a byte list,
as the code's `*(*uint32)(unsafe.Pointer(&buf[off]))` does from memory. -/
def leU32 : List Nat → Nat
  | b0 :: b1 :: b2 :: b3 :: _ => b0 + 256 * b1 + 65536 * b2 + 16777216 * b3
  | _ => 0

/-- Read a native-order (little-endian) `uint64` from the front of a byte list. -/
def leU64 : List Nat → Nat
  | b0 :: b1 :: b2 :: b3 :: b4 :: b5 :: b6 :: b7 :: _ =>
      b0 + 256 * b1 + 65536 * b2 + 16777216 * b3 + 4294967296 * b4 +
        1099511627776 * b5 + 281474976710656 * b6 + 72057594037927936 * b7
  | _ => 0

/-- The `uint32` stored at byte offset `off` of buffer `buf`. -/
def leU32At (buf : List Nat) (off : Nat) : Nat :=
  leU32 (buf.drop off)

/-- The `uint64` stored at byte offset `off` of buffer `buf`. -/
def leU64At (buf : List Nat) (off : Nat) : Nat :=
  leU64 (buf.drop off)

/-- The `int32` stored at byte offset `off`, decoded from its
two's-complement `uint32` representation. -/
def leI32At (buf : List Nat) (off : Nat) : Int :=
  let v := leU32At buf off
  if v < 2147483648 then (v : Int) else (v : Int) - 4294967296

/-- Serialize a `uint32` into its four native-order (little-endian) bytes,
as storing through `*(*uint32)(unsafe.Pointer(&outHeader[off]))` does. -/
def u32ToBytes (n : Nat) : List Nat :=
  [n % 256, n / 256 % 256, n / 65536 % 256, n / 16777216 % 256]

/-- Serialize a `uint64` into its eight native-order (little-endian) bytes. -/
def u64ToBytes (n : Nat) : List Nat :=
  [n % 256, n / 256 % 256, n / 65536 % 256, n / 16777216 % 256,
   n / 4294967296 % 256, n / 1099511627776 % 256,
   n / 281474976710656 % 256, n / 72057594037927936 % 256]

/-! ## Wire-protocol constants

`InHeaderSize`, `OutHeaderSize`, `WriteInFixedPortionSize` and the
`OpCode*` constants are declared in the repository's API file, which is
not part of the sources under verification; only `volume.go` is.  They
are modelled from the spec. -/

/-- Modelled from the spec: the fixed request-header size — "length(4) ·
opcode(4) · unique(8) · nodeid(8) · uid(4) · gid(4) · pid(4) ·
padding(4) = 40 bytes". -/
def InHeaderSize : Nat := 40

/-- Modelled from the spec: the fixed response-header size — "length(4) ·
status(4, signed, negated OS error number) · unique(8) = 16 bytes". -/
def OutHeaderSize : Nat := 16

/-- Modelled from the spec: the size of the fixed (non-data) portion of a
write request's payload ("the largest fixed-portion payload"), which in
the kernel ABI mirrored by the repository is 40 bytes. -/
def WriteInFixedPortionSize : Nat := 40

/-- Modelled from the spec: the "function not implemented" OS error
number (ENOSYS), 38 on the mirrored kernel ABI. -/
def ENOSYS : Nat := 38

/-- Modelled from the spec: the closed set of operation codes with a
handler binding, "mirroring the kernel driver ABI (roughly forty
members)"; one value per `case` arm of the dispatch switch in
`processDevFuseFDReadBuf`. -/
def knownOpCodes : List Nat :=
  [1, 2, 3, 4, 5, 6, 8, 9, 10, 11, 12, 13, 14, 15, 16, 17, 18, 20,
   21, 22, 23, 24, 25, 26, 27, 28, 29, 30, 31, 32, 33, 34, 35, 36,
   37, 38, 40, 42, 43, 44, 45, 46]

/-! ## Request header decode -/

/-- The decoded fixed request header (`InHeader`). -/
structure InHeader where
  Len : Nat
  OpCode : Nat
  Unique : Nat
  NodeID : Nat
  UID : Nat
  GID : Nat
  PID : Nat
  Padding : Nat
  deriving Repr, DecidableEq

/-- Field extraction performed by `processDevFuseFDReadBuf` on a frame of
at least `InHeaderSize` bytes: each field is the native-order integer at
its fixed offset. -/
def decodeInHeader (buf : List Nat) : InHeader where
  Len := leU32At buf 0
  OpCode := leU32At buf 4
  Unique := leU64At buf 8
  NodeID := leU64At buf 16
  UID := leU32At buf 24
  GID := leU32At buf 28
  PID := leU32At buf 32
  Padding := leU32At buf 36

/-! ## Observable events (logger calls) -/

/-- Log lines the channel core can emit, with the datum each carries. -/
inductive LogEvent where
  | malformedMessage
  | unsupportedOpCode (op : Nat)
  | exitingReadErr (msg : String)
  | unmountFailed (msg : String)
  | closeFailed (msg : String)
  | unmounted
  deriving Repr, DecidableEq

/-! ## Response writer (`devFuseFDWriter`) -/

/-- Outcome of one `devFuseFDWriter` call: the byte sequence delivered to
the descriptor in a single scatter/gather write (`none` when the call
panics indexing byte 0 of an empty payload segment before writing), and
the log lines emitted before the write. -/
structure WriterResult where
  written : Option (List Nat)
  logs : List LogEvent
  deriving Repr, DecidableEq

/-- `devFuseFDWriter`: logs ENOSYS responses, builds one iovec entry per
payload segment by taking the address of its byte 0 (a panic when a
segment is empty), then prepends the 16-byte response header — length =
header size + total payload length, status = `-int32(errno)`, Unique
echoed from the request header — and issues a single writev. -/
def devFuseFDWriter (inHeader : InHeader) (errno : Nat) (bufs : List (List Nat)) :
    WriterResult :=
  let logs := if errno = ENOSYS then [LogEvent.unsupportedOpCode inHeader.OpCode] else []
  if bufs.any List.isEmpty then
    { written := none, logs := logs }
  else
    let iovecSpan := OutHeaderSize + (bufs.map List.length).sum
    let outHeader :=
      u32ToBytes (iovecSpan % 4294967296) ++
      u32ToBytes ((4294967296 - errno % 4294967296) % 4294967296) ++
      u64ToBytes (inHeader.Unique % 18446744073709551616)
    { written := some (outHeader ++ bufs.flatten), logs := logs }

/-! ## Dispatch unit of work (`processDevFuseFDReadBuf`) -/

/-- Observable effects of one dispatch unit of work: the header/payload
pair handed past the length check (`none` for an undersized frame), the
handler invocation for a known opcode, the responses the core itself
emitted, log lines, pool releases and quiescence-barrier completions. -/
structure ProcessResult where
  decoded : Option (InHeader × List Nat)
  handlerCalls : List (InHeader × List Nat)
  responses : List (List Nat)
  logs : List LogEvent
  poolPuts : Nat
  wgDones : Nat
  deriving Repr, DecidableEq

/-- `processDevFuseFDReadBuf`: drop-and-log frames shorter than the fixed
header; otherwise decode the header, dispatch known opcodes to the bound
handler with the bytes past the header as opaque payload, answer unknown
opcodes with an ENOSYS response; in every branch release the buffer and
signal the quiescence barrier. -/
def processDevFuseFDReadBuf (buf : List Nat) : ProcessResult :=
  if buf.length < InHeaderSize then
    { decoded := none, handlerCalls := [], responses := [],
      logs := [LogEvent.malformedMessage], poolPuts := 1, wgDones := 1 }
  else
    let inHeader := decodeInHeader buf
    let payload := buf.drop InHeaderSize
    if inHeader.OpCode ∈ knownOpCodes then
      { decoded := some (inHeader, payload), handlerCalls := [(inHeader, payload)],
        responses := [], logs := [], poolPuts := 1, wgDones := 1 }
    else
      let w := devFuseFDWriter inHeader ENOSYS []
      { decoded := some (inHeader, payload), handlerCalls := [],
        responses := w.written.toList, logs := w.logs, poolPuts := 1, wgDones := 1 }

/-! ## Buffer pool -/

/-- A Go slice over the pool's backing arrays: logical length and capacity. -/
structure Buf where
  len : Nat
  bufCap : Nat
  deriving Repr, DecidableEq

/-- The channel's fixed frame capacity, set at construction in `newVolume`:
`InHeaderSize + WriteInFixedPortionSize + initOutMaxWrite`. -/
def devFuseFDReadSize (initOutMaxWrite : Nat) : Nat :=
  InHeaderSize + WriteInFixedPortionSize + initOutMaxWrite

/-- The pool's `New` function: `make([]byte, volume.devFuseFDReadSize)`,
a fresh buffer with `len == cap`. -/
def newReadBuf (readSize : Nat) : Buf :=
  { len := readSize, bufCap := readSize }

/-- `devFuseFDReadPoolGet`: take a pooled buffer if one is available,
otherwise allocate a fresh one via `New`. -/
def devFuseFDReadPoolGet (readSize : Nat) (pool : List Buf) : Buf × List Buf :=
  match pool with
  | [] => (newReadBuf readSize, [])
  | b :: rest => (b, rest)

/-- `devFuseFDReadPoolPut`: reset the buffer's logical length to its full
capacity (`devFuseFDReadBuf[:cap(devFuseFDReadBuf)]`) and return it to
the pool. -/
def devFuseFDReadPoolPut (b : Buf) (pool : List Buf) : List Buf :=
  { len := b.bufCap, bufCap := b.bufCap } :: pool

/-- Truncation `devFuseFDReadBuf[:n]` performed by the pump after a read
of `n` bytes. -/
def truncateBuf (b : Buf) (n : Nat) : Buf :=
  { len := n, bufCap := b.bufCap }

/-- Every buffer held by the pool has the channel's full frame capacity as
both length and capacity. -/
def poolInv (readSize : Nat) (pool : List Buf) : Prop :=
  ∀ b ∈ pool, b.len = readSize ∧ b.bufCap = readSize

/-! ## Read pump (`devFuseFDReader`): sequential action trace

The pump's own thread is deterministic given the sequence of outcomes
its blocking `syscall.Read` calls produce; we model that sequence as a
script and the pump as the action trace it performs. -/

/-- Outcome of one blocking `syscall.Read` on the descriptor. -/
inductive ReadResult where
  | ok (n : Nat)
  | fail (msg : String)
  deriving Repr, DecidableEq

/-- Actions the pump thread performs, in program order. -/
inductive PumpAction where
  | poolGet
  | spawn (n : Nat)
  | waitCallbacks
  | readerWGDone
  | logReadErr (msg : String)
  | errSend (o : Option String)
  deriving Repr, DecidableEq

/-- The action trace of `devFuseFDReader` run against a script of read
outcomes: acquire a buffer and read; on "operation not permitted" retry
the loop; on any other error wait out the callbacks barrier, release the
reader wait group, then send the outcome on `errChan` — `none` for
"no such device", the error itself (after logging) otherwise; on success
spawn a dispatch unit and continue. -/
def devFuseFDReaderTrace : List ReadResult → List PumpAction
  | [] => []
  | ReadResult.ok n :: rest =>
      PumpAction.poolGet :: PumpAction.spawn n :: devFuseFDReaderTrace rest
  | ReadResult.fail msg :: rest =>
      if msg = "operation not permitted" then
        PumpAction.poolGet :: devFuseFDReaderTrace rest
      else if msg = "no such device" then
        [PumpAction.poolGet, PumpAction.waitCallbacks, PumpAction.readerWGDone,
         PumpAction.errSend none]
      else
        [PumpAction.poolGet, PumpAction.waitCallbacks, PumpAction.readerWGDone,
         PumpAction.logReadErr msg, PumpAction.errSend (some msg)]

/-! ## Read pump: concurrent transition system

For the quiescence claim the dispatch units' completions interleave with
the pump, so we use a labelled transition system over the channel state:
the pending read script, the callbacks wait-group counter (number of
spawned, unfinished dispatch units), and the pump's phase. -/

/-- Pump phase: `running` (in the read loop), `draining o` (read failed
terminally with recorded outcome `o`, pump past `callbacksWG.Wait`
pending), `closed` (outcome sent on `errChan`, pump returned). -/
inductive Phase where
  | running
  | draining (o : Option String)
  | closed
  deriving Repr, DecidableEq

/-- Channel state for the concurrent pump model. -/
structure PumpState where
  script : List ReadResult
  inFlight : Nat
  phase : Phase
  deriving Repr, DecidableEq

/-- Observable events of the channel. -/
inductive Ev where
  | spawnEv
  | completeEv
  | sendEv (o : Option String)
  | internalEv
  deriving Repr, DecidableEq

/-- Terminal outcome recorded for a non-retryable read error: `none`
(graceful) for "no such device", the error itself otherwise. -/
def outcomeOf (msg : String) : Option String :=
  if msg = "no such device" then none else some msg

/-- One step of the channel: the pump reads (spawning a unit on success,
retrying on "operation not permitted", entering the drain on any other
error), a dispatch unit completes (`callbacksWG.Done`), or the pump —
only once every spawned unit has completed, since `callbacksWG.Wait`
precedes the send and nothing is spawned while draining — delivers the
recorded outcome on `errChan` and returns. -/
inductive Step : PumpState → Ev → PumpState → Prop where
  | readOk (n : Nat) (rest : List ReadResult) (k : Nat) :
      Step ⟨ReadResult.ok n :: rest, k, Phase.running⟩ Ev.spawnEv
        ⟨rest, k + 1, Phase.running⟩
  | readRetry (rest : List ReadResult) (k : Nat) :
      Step ⟨ReadResult.fail "operation not permitted" :: rest, k, Phase.running⟩
        Ev.internalEv ⟨rest, k, Phase.running⟩
  | readTerminal (msg : String) (rest : List ReadResult) (k : Nat)
      (hne : msg ≠ "operation not permitted") :
      Step ⟨ReadResult.fail msg :: rest, k, Phase.running⟩ Ev.internalEv
        ⟨rest, k, Phase.draining (outcomeOf msg)⟩
  | complete (script : List ReadResult) (k : Nat) (ph : Phase) :
      Step ⟨script, k + 1, ph⟩ Ev.completeEv ⟨script, k, ph⟩
  | send (script : List ReadResult) (o : Option String) :
      Step ⟨script, 0, Phase.draining o⟩ (Ev.sendEv o) ⟨script, 0, Phase.closed⟩

/-- Finite executions of the channel, recording the event trace. -/
inductive Steps : PumpState → List Ev → PumpState → Prop where
  | refl (s : PumpState) : Steps s [] s
  | cons {s s' s'' : PumpState} {e : Ev} {tr : List Ev} :
      Step s e s' → Steps s' tr s'' → Steps s (e :: tr) s''

/-- The channel's initial state: full script, no dispatch unit in flight,
pump in its read loop. -/
def initPumpState (script : List ReadResult) : PumpState :=
  ⟨script, 0, Phase.running⟩

/-- Number of `sendEv` events in a trace. -/
def sendCount (tr : List Ev) : Nat :=
  tr.countP fun e => match e with | Ev.sendEv _ => true | _ => false

/-- Number of `spawnEv` events in a trace. -/
def spawnCount (tr : List Ev) : Nat :=
  tr.countP fun e => match e with | Ev.spawnEv => true | _ => false

/-- Number of `completeEv` events in a trace. -/
def completeCount (tr : List Ev) : Nat :=
  tr.countP fun e => match e with | Ev.completeEv => true | _ => false

/-! ## Unmount path (`DoUnmount`) -/

/-- Actions `DoUnmount` performs, in program order. -/
inductive UnmountAction where
  | unmountCall
  | closeCall
  | waitReader
  | logEvent (ev : LogEvent)
  deriving Repr, DecidableEq

/-- `DoUnmount`, run against the outcomes of its two syscalls (`none` =
success): a failed forced unmount logs and returns its error at once; a
failed descriptor close logs and returns its error at once; only when
both succeed does it wait on the reader wait group and log the unmount. -/
def DoUnmount (unmountErr closeErr : Option String) :
    Option String × List UnmountAction :=
  match unmountErr with
  | some e =>
      (some e, [UnmountAction.unmountCall,
                UnmountAction.logEvent (LogEvent.unmountFailed e)])
  | none =>
      match closeErr with
      | some e =>
          (some e, [UnmountAction.unmountCall, UnmountAction.closeCall,
                    UnmountAction.logEvent (LogEvent.closeFailed e)])
      | none =>
          (none, [UnmountAction.unmountCall, UnmountAction.closeCall,
                  UnmountAction.waitReader,
                  UnmountAction.logEvent LogEvent.unmounted])

/-- A fixed request header used to instantiate universally quantified
statements at a concrete input. -/
def sampleInHeader : InHeader :=
  { Len := 48, OpCode := 25, Unique := 7, NodeID := 1, UID := 0, GID := 0,
    PID := 0, Padding := 0 }

/-! ## Byte-layout lemmas -/

theorem leU32_u32ToBytes_append (n : Nat) (rest : List Nat) :
    leU32 (u32ToBytes n ++ rest) = n % 4294967296 := by
  simp only [u32ToBytes, List.cons_append, List.nil_append, leU32]
  omega

theorem leU64_u64ToBytes_append (n : Nat) (rest : List Nat) :
    leU64 (u64ToBytes n ++ rest) = n % 18446744073709551616 := by
  simp only [u64ToBytes, List.cons_append, List.nil_append, leU64]
  omega

theorem getD_drop (l : List Nat) (i j : Nat) :
    (l.drop i).getD j 0 = l.getD (i + j) 0 := by
  simp [List.getD_eq_getElem?_getD, List.getElem?_drop]

theorem leU32_eq_getD :
    ∀ (l : List Nat), 4 ≤ l.length →
      leU32 l = l.getD 0 0 + 256 * l.getD 1 0 + 65536 * l.getD 2 0 +
        16777216 * l.getD 3 0
  | _ :: _ :: _ :: _ :: _, _ => rfl

theorem leU64_eq_getD :
    ∀ (l : List Nat), 8 ≤ l.length →
      leU64 l = l.getD 0 0 + 256 * l.getD 1 0 + 65536 * l.getD 2 0 +
        16777216 * l.getD 3 0 + 4294967296 * l.getD 4 0 +
        1099511627776 * l.getD 5 0 + 281474976710656 * l.getD 6 0 +
        72057594037927936 * l.getD 7 0
  | _ :: _ :: _ :: _ :: _ :: _ :: _ :: _ :: _, _ => rfl

theorem leU32At_eq_getD (buf : List Nat) (off : Nat) (h : off + 4 ≤ buf.length) :
    leU32At buf off =
      buf.getD off 0 + 256 * buf.getD (off + 1) 0 + 65536 * buf.getD (off + 2) 0 +
        16777216 * buf.getD (off + 3) 0 := by
  have hlen : 4 ≤ (buf.drop off).length := by
    simp only [List.length_drop]
    omega
  rw [leU32At, leU32_eq_getD _ hlen]
  simp [getD_drop]

theorem leU64At_eq_getD (buf : List Nat) (off : Nat) (h : off + 8 ≤ buf.length) :
    leU64At buf off =
      buf.getD off 0 + 256 * buf.getD (off + 1) 0 + 65536 * buf.getD (off + 2) 0 +
        16777216 * buf.getD (off + 3) 0 + 4294967296 * buf.getD (off + 4) 0 +
        1099511627776 * buf.getD (off + 5) 0 + 281474976710656 * buf.getD (off + 6) 0 +
        72057594037927936 * buf.getD (off + 7) 0 := by
  have hlen : 8 ≤ (buf.drop off).length := by
    simp only [List.length_drop]
    omega
  rw [leU64At, leU64_eq_getD _ hlen]
  simp [getD_drop]

theorem drop4_u32ToBytes (n : Nat) (rest : List Nat) :
    (u32ToBytes n ++ rest).drop 4 = rest := rfl

theorem drop8_u32u32 (m n : Nat) (rest : List Nat) :
    (u32ToBytes m ++ (u32ToBytes n ++ rest)).drop 8 = rest := rfl

/-! ## C7 — short frames are dropped without a response -/

/-- C7: a frame shorter than the fixed 40-byte header produces zero
responses and zero handler calls, exactly one log entry, one pool
release, and one quiescence-barrier completion. -/
theorem short_frame_dropped (buf : List Nat) (hshort : buf.length < InHeaderSize) :
    (processDevFuseFDReadBuf buf).responses = [] ∧
    (processDevFuseFDReadBuf buf).handlerCalls = [] ∧
    (processDevFuseFDReadBuf buf).logs = [LogEvent.malformedMessage] ∧
    (processDevFuseFDReadBuf buf).poolPuts = 1 ∧
    (processDevFuseFDReadBuf buf).wgDones = 1 := by
  simp [processDevFuseFDReadBuf, if_pos hshort]

/-- Witness for C7 at the 3-byte frame `[1, 2, 3]`. -/
theorem short_frame_dropped_witness :
    (processDevFuseFDReadBuf [1, 2, 3]).responses = [] ∧
    (processDevFuseFDReadBuf [1, 2, 3]).handlerCalls = [] ∧
    (processDevFuseFDReadBuf [1, 2, 3]).logs = [LogEvent.malformedMessage] ∧
    (processDevFuseFDReadBuf [1, 2, 3]).poolPuts = 1 ∧
    (processDevFuseFDReadBuf [1, 2, 3]).wgDones = 1 :=
  short_frame_dropped [1, 2, 3] (by decide)

/-! ## C2 — header fields decoded at the documented offsets -/

/-- C2: on a frame of at least 40 bytes, the dispatch unit decodes Len as
the native-order `uint32` formed from bytes 0–3, OpCode from bytes 4–7,
Unique from bytes 8–15, NodeID from bytes 16–23, UID from bytes 24–27,
GID from bytes 28–31, PID from bytes 32–35, Padding from bytes 36–39,
and hands the bytes from offset 40 onward to the dispatch stage — in
particular to the bound handler when the opcode is known — as the opaque
payload. -/
theorem decode_extracts_fields_at_offsets (buf : List Nat)
    (hlen : InHeaderSize ≤ buf.length) :
    (processDevFuseFDReadBuf buf).decoded =
      some
        ({ Len := buf.getD 0 0 + 256 * buf.getD 1 0 + 65536 * buf.getD 2 0 +
             16777216 * buf.getD 3 0,
           OpCode := buf.getD 4 0 + 256 * buf.getD 5 0 + 65536 * buf.getD 6 0 +
             16777216 * buf.getD 7 0,
           Unique := buf.getD 8 0 + 256 * buf.getD 9 0 + 65536 * buf.getD 10 0 +
             16777216 * buf.getD 11 0 + 4294967296 * buf.getD 12 0 +
             1099511627776 * buf.getD 13 0 + 281474976710656 * buf.getD 14 0 +
             72057594037927936 * buf.getD 15 0,
           NodeID := buf.getD 16 0 + 256 * buf.getD 17 0 + 65536 * buf.getD 18 0 +
             16777216 * buf.getD 19 0 + 4294967296 * buf.getD 20 0 +
             1099511627776 * buf.getD 21 0 + 281474976710656 * buf.getD 22 0 +
             72057594037927936 * buf.getD 23 0,
           UID := buf.getD 24 0 + 256 * buf.getD 25 0 + 65536 * buf.getD 26 0 +
             16777216 * buf.getD 27 0,
           GID := buf.getD 28 0 + 256 * buf.getD 29 0 + 65536 * buf.getD 30 0 +
             16777216 * buf.getD 31 0,
           PID := buf.getD 32 0 + 256 * buf.getD 33 0 + 65536 * buf.getD 34 0 +
             16777216 * buf.getD 35 0,
           Padding := buf.getD 36 0 + 256 * buf.getD 37 0 + 65536 * buf.getD 38 0 +
             16777216 * buf.getD 39 0 }, buf.drop 40) ∧
    ((decodeInHeader buf).OpCode ∈ knownOpCodes →
      (processDevFuseFDReadBuf buf).handlerCalls =
        [(decodeInHeader buf, buf.drop 40)]) := by
  have hlen' : 40 ≤ buf.length := hlen
  have hnotshort : ¬ buf.length < 40 := by omega
  have hdr : decodeInHeader buf =
      { Len := buf.getD 0 0 + 256 * buf.getD 1 0 + 65536 * buf.getD 2 0 +
          16777216 * buf.getD 3 0,
        OpCode := buf.getD 4 0 + 256 * buf.getD 5 0 + 65536 * buf.getD 6 0 +
          16777216 * buf.getD 7 0,
        Unique := buf.getD 8 0 + 256 * buf.getD 9 0 + 65536 * buf.getD 10 0 +
          16777216 * buf.getD 11 0 + 4294967296 * buf.getD 12 0 +
          1099511627776 * buf.getD 13 0 + 281474976710656 * buf.getD 14 0 +
          72057594037927936 * buf.getD 15 0,
        NodeID := buf.getD 16 0 + 256 * buf.getD 17 0 + 65536 * buf.getD 18 0 +
          16777216 * buf.getD 19 0 + 4294967296 * buf.getD 20 0 +
          1099511627776 * buf.getD 21 0 + 281474976710656 * buf.getD 22 0 +
          72057594037927936 * buf.getD 23 0,
        UID := buf.getD 24 0 + 256 * buf.getD 25 0 + 65536 * buf.getD 26 0 +
          16777216 * buf.getD 27 0,
        GID := buf.getD 28 0 + 256 * buf.getD 29 0 + 65536 * buf.getD 30 0 +
          16777216 * buf.getD 31 0,
        PID := buf.getD 32 0 + 256 * buf.getD 33 0 + 65536 * buf.getD 34 0 +
          16777216 * buf.getD 35 0,
        Padding := buf.getD 36 0 + 256 * buf.getD 37 0 + 65536 * buf.getD 38 0 +
          16777216 * buf.getD 39 0 } := by
    have h0 := leU32At_eq_getD buf 0 (by omega)
    have h4 := leU32At_eq_getD buf 4 (by omega)
    have h8 := leU64At_eq_getD buf 8 (by omega)
    have h16 := leU64At_eq_getD buf 16 (by omega)
    have h24 := leU32At_eq_getD buf 24 (by omega)
    have h28 := leU32At_eq_getD buf 28 (by omega)
    have h32 := leU32At_eq_getD buf 32 (by omega)
    have h36 := leU32At_eq_getD buf 36 (by omega)
    simp [decodeInHeader, h0, h4, h8, h16, h24, h28, h32, h36]
  constructor
  · rw [← hdr]
    by_cases hop : (decodeInHeader buf).OpCode ∈ knownOpCodes <;>
      simp [processDevFuseFDReadBuf, InHeaderSize, hnotshort, hop]
  · intro hop
    simp [processDevFuseFDReadBuf, InHeaderSize, hnotshort, hop]

/-- Witness for C2 at a concrete 41-byte frame with OpCode 3 (GetAttr). -/
theorem decode_extracts_fields_at_offsets_witness :
    (processDevFuseFDReadBuf
        [41, 0, 0, 0, 3, 0, 0, 0, 9, 0, 0, 0, 0, 0, 0, 0,
         5, 0, 0, 0, 0, 0, 0, 0, 0, 0, 0, 0, 0, 0, 0, 0,
         0, 0, 0, 0, 0, 0, 0, 0, 77]).decoded =
      some
        ({ Len := 41, OpCode := 3, Unique := 9, NodeID := 5, UID := 0, GID := 0,
           PID := 0, Padding := 0 }, [77]) ∧
    ((decodeInHeader
        [41, 0, 0, 0, 3, 0, 0, 0, 9, 0, 0, 0, 0, 0, 0, 0,
         5, 0, 0, 0, 0, 0, 0, 0, 0, 0, 0, 0, 0, 0, 0, 0,
         0, 0, 0, 0, 0, 0, 0, 0, 77]).OpCode ∈ knownOpCodes →
      (processDevFuseFDReadBuf
        [41, 0, 0, 0, 3, 0, 0, 0, 9, 0, 0, 0, 0, 0, 0, 0,
         5, 0, 0, 0, 0, 0, 0, 0, 0, 0, 0, 0, 0, 0, 0, 0,
         0, 0, 0, 0, 0, 0, 0, 0, 77]).handlerCalls =
        [(decodeInHeader
            [41, 0, 0, 0, 3, 0, 0, 0, 9, 0, 0, 0, 0, 0, 0, 0,
             5, 0, 0, 0, 0, 0, 0, 0, 0, 0, 0, 0, 0, 0, 0, 0,
             0, 0, 0, 0, 0, 0, 0, 0, 77],
          [77])]) := by
  have h := decode_extracts_fields_at_offsets
    [41, 0, 0, 0, 3, 0, 0, 0, 9, 0, 0, 0, 0, 0, 0, 0,
     5, 0, 0, 0, 0, 0, 0, 0, 0, 0, 0, 0, 0, 0, 0, 0,
     0, 0, 0, 0, 0, 0, 0, 0, 77] (by decide)
  constructor
  · rw [h.1]
    decide
  · exact h.2

/-! ## Response-writer layout -/

theorem drop16_header (a b c : Nat) (rest : List Nat) :
    ((u32ToBytes a ++ (u32ToBytes b ++ (u64ToBytes c ++ rest)))).drop 16 = rest := rfl

/-- Shared layout fact about `devFuseFDWriter`: when every payload segment
is non-empty, the bytes delivered in the single write are the 16-byte
response header — length field = 16 + total payload length, status field
= `-errno` in two's complement, Unique echoed — followed by the payload
segments in order. -/
theorem devFuseFDWriter_layout (inHeader : InHeader) (errno : Nat)
    (bufs : List (List Nat)) (hne : ∀ b ∈ bufs, b ≠ []) (herr : errno < 2147483648) :
    ∃ bs, (devFuseFDWriter inHeader errno bufs).written = some bs ∧
      bs.length = OutHeaderSize + (bufs.map List.length).sum ∧
      leU32At bs 0 = (OutHeaderSize + (bufs.map List.length).sum) % 4294967296 ∧
      leI32At bs 4 = -(errno : Int) ∧
      leU64At bs 8 = inHeader.Unique % 18446744073709551616 ∧
      bs.drop OutHeaderSize = bufs.flatten := by
  have hany : bufs.any List.isEmpty = false := by
    simp only [List.any_eq_false]
    intro b hb
    simpa [List.isEmpty_iff] using hne b hb
  refine ⟨u32ToBytes ((OutHeaderSize + (bufs.map List.length).sum) % 4294967296) ++
      (u32ToBytes ((4294967296 - errno % 4294967296) % 4294967296) ++
        (u64ToBytes (inHeader.Unique % 18446744073709551616) ++ bufs.flatten)),
    ?_, ?_, ?_, ?_, ?_, ?_⟩
  · simp [devFuseFDWriter, hany]
  · simp only [List.length_append, u32ToBytes, u64ToBytes, List.length_cons,
      List.length_nil, List.length_flatten, OutHeaderSize]
    omega
  · rw [leU32At, List.drop_zero, leU32_u32ToBytes_append]
    omega
  · rw [leI32At, leU32At, drop4_u32ToBytes, leU32_u32ToBytes_append]
    split_ifs with h1
    · omega
    · omega
  · rw [leU64At, drop8_u32u32, leU64_u64ToBytes_append]
    omega
  · rw [show OutHeaderSize = 16 from rfl, drop16_header]

/-- C3: for every response built for request header `H`, status `E` and
non-empty payload segments, the encoded 16-byte response header carries
length = 16 + the total payload length at offset 0, status = `-E` as a
signed 32-bit value at offset 4 (0 when `E` = 0), and `H.Unique` at
offset 8; the bytes written are the header followed by the segments in
order. -/
theorem writer_response_header_layout (inHeader : InHeader) (errno : Nat)
    (bufs : List (List Nat)) (hne : ∀ b ∈ bufs, b ≠ []) (herr : errno < 2147483648) :
    ∃ bs, (devFuseFDWriter inHeader errno bufs).written = some bs ∧
      bs.length = OutHeaderSize + (bufs.map List.length).sum ∧
      leU32At bs 0 = (OutHeaderSize + (bufs.map List.length).sum) % 4294967296 ∧
      leI32At bs 4 = -(errno : Int) ∧
      leU64At bs 8 = inHeader.Unique % 18446744073709551616 ∧
      bs.drop OutHeaderSize = bufs.flatten :=
  devFuseFDWriter_layout inHeader errno bufs hne herr

/-- Witness for C3: a response for Unique 7 with status 5 and payload
segments `[1]` and `[2, 3]`. -/
theorem writer_response_header_layout_witness :
    ∃ bs,
      (devFuseFDWriter sampleInHeader 5 [[1], [2, 3]]).written = some bs ∧
      bs.length = OutHeaderSize + ([[1], [2, 3]].map List.length).sum ∧
      leU32At bs 0 = (OutHeaderSize + ([[1], [2, 3]].map List.length).sum) % 4294967296 ∧
      leI32At bs 4 = -((5 : Nat) : Int) ∧
      leU64At bs 8 = sampleInHeader.Unique % 18446744073709551616 ∧
      bs.drop OutHeaderSize = [[1], [2, 3]].flatten :=
  writer_response_header_layout sampleInHeader 5 [[1], [2, 3]] (by decide) (by decide)

/-! ## C6 — unsupported opcodes get a header-only ENOSYS response -/

/-- C6: a well-formed frame whose decoded opcode has no handler binding
makes the channel emit exactly one response of exactly 16 bytes — status
= negated "function not implemented" (-38), Unique echoed from the
request — and log the unrecognized opcode value. -/
theorem unknown_opcode_enosys_response (buf : List Nat)
    (hlen : InHeaderSize ≤ buf.length)
    (hop : (decodeInHeader buf).OpCode ∉ knownOpCodes) :
    ∃ bs, (processDevFuseFDReadBuf buf).responses = [bs] ∧
      bs.length = OutHeaderSize ∧
      leU32At bs 0 = OutHeaderSize ∧
      leI32At bs 4 = -38 ∧
      leU64At bs 8 = (decodeInHeader buf).Unique % 18446744073709551616 ∧
      (processDevFuseFDReadBuf buf).logs =
        [LogEvent.unsupportedOpCode (decodeInHeader buf).OpCode] := by
  have hlen' : 40 ≤ buf.length := hlen
  have hns : ¬ buf.length < 40 := by omega
  obtain ⟨bs, hw, hl, h0, h4, h8, hdrop⟩ :=
    devFuseFDWriter_layout (decodeInHeader buf) ENOSYS [] (by simp) (by decide)
  refine ⟨bs, ?_, ?_, ?_, ?_, h8, ?_⟩
  · simp [processDevFuseFDReadBuf, InHeaderSize, hns, hop, hw]
  · simpa [OutHeaderSize] using hl
  · simpa [OutHeaderSize] using h0
  · rw [h4]
    decide
  · simp [processDevFuseFDReadBuf, InHeaderSize, hns, hop, devFuseFDWriter, ENOSYS]

/-- Witness for C6 at a 40-byte frame with the unknown opcode 99 and
Unique 9. -/
theorem unknown_opcode_enosys_response_witness :
    ∃ bs,
      (processDevFuseFDReadBuf
          [40, 0, 0, 0, 99, 0, 0, 0, 9, 0, 0, 0, 0, 0, 0, 0,
           0, 0, 0, 0, 0, 0, 0, 0, 0, 0, 0, 0, 0, 0, 0, 0,
           0, 0, 0, 0, 0, 0, 0, 0]).responses = [bs] ∧
      bs.length = OutHeaderSize ∧
      leU32At bs 0 = OutHeaderSize ∧
      leI32At bs 4 = -38 ∧
      leU64At bs 8 =
        (decodeInHeader
            [40, 0, 0, 0, 99, 0, 0, 0, 9, 0, 0, 0, 0, 0, 0, 0,
             0, 0, 0, 0, 0, 0, 0, 0, 0, 0, 0, 0, 0, 0, 0, 0,
             0, 0, 0, 0, 0, 0, 0, 0]).Unique % 18446744073709551616 ∧
      (processDevFuseFDReadBuf
          [40, 0, 0, 0, 99, 0, 0, 0, 9, 0, 0, 0, 0, 0, 0, 0,
           0, 0, 0, 0, 0, 0, 0, 0, 0, 0, 0, 0, 0, 0, 0, 0,
           0, 0, 0, 0, 0, 0, 0, 0]).logs =
        [LogEvent.unsupportedOpCode
          (decodeInHeader
              [40, 0, 0, 0, 99, 0, 0, 0, 9, 0, 0, 0, 0, 0, 0, 0,
               0, 0, 0, 0, 0, 0, 0, 0, 0, 0, 0, 0, 0, 0, 0, 0,
               0, 0, 0, 0, 0, 0, 0, 0]).OpCode] :=
  unknown_opcode_enosys_response
    [40, 0, 0, 0, 99, 0, 0, 0, 9, 0, 0, 0, 0, 0, 0, 0,
     0, 0, 0, 0, 0, 0, 0, 0, 0, 0, 0, 0, 0, 0, 0, 0,
     0, 0, 0, 0, 0, 0, 0, 0] (by decide) (by decide)

/-! ## C9 — payload-segment indexing in the writer -/

/-- C9: `devFuseFDWriter` takes the address of byte 0 of every payload
segment; with all segments non-empty this indexing is in bounds and the
write is performed, while a zero-length segment makes the indexing go
out of bounds (runtime panic, modelled as `written = none`) as on the
concrete input with the single empty segment. -/
theorem writer_segment_indexing :
    (∀ (inHeader : InHeader) (errno : Nat) (bufs : List (List Nat)),
        (∀ b ∈ bufs, b ≠ []) →
          ((devFuseFDWriter inHeader errno bufs).written).isSome = true) ∧
    (devFuseFDWriter sampleInHeader 0 [[]]).written = none := by
  constructor
  · intro inHeader errno bufs hne
    have hany : bufs.any List.isEmpty = false := by
      simp only [List.any_eq_false]
      intro b hb
      simpa [List.isEmpty_iff] using hne b hb
    simp [devFuseFDWriter, hany]
  · rfl

/-- Witness for C9's universally quantified half at concrete non-empty
segments. -/
theorem writer_segment_indexing_witness :
    ((devFuseFDWriter sampleInHeader 17 [[4], [5, 6]]).written).isSome = true :=
  writer_segment_indexing.1 sampleInHeader 17 [[4], [5, 6]] (by decide)

/-! ## C8 — buffer-pool round trip -/

/-- C8: acquisition yields a buffer of exactly the channel's fixed frame
capacity (header size + fixed write-in portion + negotiated max write);
releasing a buffer truncated to any length within its capacity resets it
to full capacity and keeps the pool invariant, so a subsequent
acquisition again yields a full-capacity buffer. -/
theorem pool_round_trip (maxWrite : Nat) :
    (∀ pool, poolInv (devFuseFDReadSize maxWrite) pool →
        ((devFuseFDReadPoolGet (devFuseFDReadSize maxWrite) pool).1).len =
            devFuseFDReadSize maxWrite ∧
          ((devFuseFDReadPoolGet (devFuseFDReadSize maxWrite) pool).1).bufCap =
            devFuseFDReadSize maxWrite) ∧
    (∀ (b : Buf) (k : Nat) (pool : List Buf),
        b.bufCap = devFuseFDReadSize maxWrite → k ≤ b.bufCap →
          poolInv (devFuseFDReadSize maxWrite) pool →
            poolInv (devFuseFDReadSize maxWrite)
              (devFuseFDReadPoolPut (truncateBuf b k) pool)) ∧
    (∀ (b : Buf) (k : Nat) (pool : List Buf),
        b.bufCap = devFuseFDReadSize maxWrite → k ≤ b.bufCap →
          ((devFuseFDReadPoolGet (devFuseFDReadSize maxWrite)
              (devFuseFDReadPoolPut (truncateBuf b k) pool)).1).len =
            devFuseFDReadSize maxWrite) := by
  refine ⟨?_, ?_, ?_⟩
  · intro pool hinv
    cases pool with
    | nil => exact ⟨rfl, rfl⟩
    | cons b rest => exact hinv b (by simp [devFuseFDReadPoolGet])
  · intro b k pool hcap hk hinv
    intro c hc
    simp only [devFuseFDReadPoolPut] at hc
    rcases List.mem_cons.mp hc with hc | hc
    · subst hc
      refine ⟨?_, ?_⟩ <;> simp [truncateBuf, hcap]
    · exact hinv c hc
  · intro b k pool hcap hk
    simp [devFuseFDReadPoolGet, devFuseFDReadPoolPut, truncateBuf, hcap]

/-- Witness for C8: acquire-after-release of a buffer truncated to 100
bytes on a channel with max write 1048576. -/
theorem pool_round_trip_witness :
    ((devFuseFDReadPoolGet (devFuseFDReadSize 1048576)
        (devFuseFDReadPoolPut
          (truncateBuf (newReadBuf (devFuseFDReadSize 1048576)) 100) [])).1).len =
      devFuseFDReadSize 1048576 :=
  (pool_round_trip 1048576).2.2 (newReadBuf (devFuseFDReadSize 1048576)) 100 []
    rfl (by decide)

/-! ## C4 — DoUnmount error paths -/

/-- C4 as stated is false: on a failed unmount call, `DoUnmount` returns
the error without ever reaching `devFuseFDReaderWG.Wait`, so the pump's
termination is not awaited in that failure case. -/
theorem doUnmount_failure_skips_wait_counterexample :
    (DoUnmount (some "device or resource busy") none).1 =
        some "device or resource busy" ∧
      UnmountAction.waitReader ∉ (DoUnmount (some "device or resource busy") none).2 := by
  decide

/-- C4 amended: `DoUnmount` returns a non-nil error exactly when the
unmount or the close call fails, but in either failure case it returns
immediately without waiting for the read pump's termination; it waits on
the reader wait group only when both calls succeed. -/
theorem doUnmount_error_and_wait (unmountErr closeErr : Option String) :
    (((unmountErr = none ∧ closeErr = none)) ↔
        (DoUnmount unmountErr closeErr).1 = none) ∧
    (¬(unmountErr = none ∧ closeErr = none) →
        UnmountAction.waitReader ∉ (DoUnmount unmountErr closeErr).2) ∧
    ((unmountErr = none ∧ closeErr = none) →
        UnmountAction.waitReader ∈ (DoUnmount unmountErr closeErr).2) := by
  cases unmountErr <;> cases closeErr <;> simp [DoUnmount]

/-- Witness for C4's amended claim: after a failed unmount call the error
is surfaced and no wait on the reader wait group occurs. -/
theorem doUnmount_error_and_wait_witness :
    UnmountAction.waitReader ∉ (DoUnmount (some "input/output error") none).2 :=
  (doUnmount_error_and_wait (some "input/output error") none).2.1 (by simp)

/-! ## C5 — read-error classification in the pump -/

/-- C5: "operation not permitted" makes the pump retry the read at once,
spawning nothing and surfacing nothing; "no such device" terminates the
pump with a nil (graceful) outcome on `errChan`; any other read error
terminates the pump with that error, after logging it; and no trace ever
surfaces "operation not permitted" on `errChan`. -/
theorem read_error_classification :
    (∀ rest, devFuseFDReaderTrace (ReadResult.fail "operation not permitted" :: rest) =
        PumpAction.poolGet :: devFuseFDReaderTrace rest) ∧
    (∀ rest, devFuseFDReaderTrace (ReadResult.fail "no such device" :: rest) =
        [PumpAction.poolGet, PumpAction.waitCallbacks, PumpAction.readerWGDone,
         PumpAction.errSend none]) ∧
    (∀ msg rest, msg ≠ "operation not permitted" → msg ≠ "no such device" →
        devFuseFDReaderTrace (ReadResult.fail msg :: rest) =
          [PumpAction.poolGet, PumpAction.waitCallbacks, PumpAction.readerWGDone,
           PumpAction.logReadErr msg, PumpAction.errSend (some msg)]) ∧
    (∀ script msg, PumpAction.errSend (some msg) ∈ devFuseFDReaderTrace script →
        msg ≠ "operation not permitted") := by
  refine ⟨?_, ?_, ?_, ?_⟩
  · intro rest
    simp [devFuseFDReaderTrace]
  · intro rest
    simp [devFuseFDReaderTrace]
  · intro msg rest h1 h2
    simp [devFuseFDReaderTrace, h1, h2]
  · intro script
    induction script with
    | nil =>
        intro msg h
        simp [devFuseFDReaderTrace] at h
    | cons r rest ih =>
        cases r with
        | ok n =>
            intro msg h
            simp [devFuseFDReaderTrace] at h
            exact ih msg h
        | fail m =>
            intro msg h
            by_cases h1 : m = "operation not permitted"
            · subst h1
              simp [devFuseFDReaderTrace] at h
              exact ih msg h
            · by_cases h2 : m = "no such device"
              · subst h2
                simp [devFuseFDReaderTrace, h1] at h
              · simp [devFuseFDReaderTrace, h1, h2] at h
                subst h
                exact h1

/-- Witness for C5's other-error clause at the concrete read error
"input/output error". -/
theorem read_error_classification_witness :
    devFuseFDReaderTrace [ReadResult.fail "input/output error"] =
      [PumpAction.poolGet, PumpAction.waitCallbacks, PumpAction.readerWGDone,
       PumpAction.logReadErr "input/output error",
       PumpAction.errSend (some "input/output error")] :=
  read_error_classification.2.2.1 "input/output error" [] (by decide) (by decide)

/-! ## C10 — reader wait group released before the completion signal -/

/-- C10: in the pump's termination sequence the reader wait group is
released (`devFuseFDReaderWG.Done`) strictly before the outcome is sent
on `errChan`: every send on `errChan` is preceded in the pump's action
trace by `readerWGDone`; `DoUnmount` (and `DoMount`'s failure path) wait
only on that wait group, so they can return before the completion signal
has been delivered. -/
theorem readerDone_before_errChan_send (script : List ReadResult) (o : Option String)
    (hmem : PumpAction.errSend o ∈ devFuseFDReaderTrace script) :
    ∃ tr1 tr2, devFuseFDReaderTrace script = tr1 ++ PumpAction.readerWGDone :: tr2 ∧
      PumpAction.errSend o ∈ tr2 := by
  induction script with
  | nil => simp [devFuseFDReaderTrace] at hmem
  | cons r rest ih =>
      revert hmem
      cases r with
      | ok n =>
          intro hmem
          simp [devFuseFDReaderTrace] at hmem
          obtain ⟨tr1, tr2, heq, hm⟩ := ih hmem
          exact ⟨PumpAction.poolGet :: PumpAction.spawn n :: tr1, tr2,
            by simp [devFuseFDReaderTrace, heq], hm⟩
      | fail m =>
          intro hmem
          by_cases h1 : m = "operation not permitted"
          · subst h1
            simp [devFuseFDReaderTrace] at hmem
            obtain ⟨tr1, tr2, heq, hm⟩ := ih hmem
            exact ⟨PumpAction.poolGet :: tr1, tr2,
              by simp [devFuseFDReaderTrace, heq], hm⟩
          · by_cases h2 : m = "no such device"
            · subst h2
              simp [devFuseFDReaderTrace, h1] at hmem
              exact ⟨[PumpAction.poolGet, PumpAction.waitCallbacks],
                [PumpAction.errSend none],
                by simp [devFuseFDReaderTrace], by simp [hmem]⟩
            · simp [devFuseFDReaderTrace, h1, h2] at hmem
              exact ⟨[PumpAction.poolGet, PumpAction.waitCallbacks],
                [PumpAction.logReadErr m, PumpAction.errSend (some m)],
                by simp [devFuseFDReaderTrace, h1, h2], by simp [hmem]⟩

/-- Witness for C10 at the one-read script that closes the descriptor. -/
theorem readerDone_before_errChan_send_witness :
    ∃ tr1 tr2, devFuseFDReaderTrace [ReadResult.fail "no such device"] =
        tr1 ++ PumpAction.readerWGDone :: tr2 ∧
      PumpAction.errSend none ∈ tr2 :=
  readerDone_before_errChan_send [ReadResult.fail "no such device"] none (by decide)

/-! ## C1 — completion signal delivered once, only after quiescence -/

theorem Steps_inFlight_count {s s' : PumpState} {tr : List Ev}
    (h : Steps s tr s') :
    s'.inFlight + completeCount tr = s.inFlight + spawnCount tr := by
  induction h with
  | refl s => simp [spawnCount, completeCount]
  | cons hstep hrest ih =>
      cases hstep <;>
        simp only [spawnCount, completeCount, List.countP_cons] at ih ⊢ <;>
        simp at ih ⊢ <;> omega

theorem Steps_from_closed {s s' : PumpState} {tr : List Ev}
    (h : Steps s tr s') :
    s.phase = Phase.closed → sendCount tr = 0 ∧ s'.phase = Phase.closed := by
  induction h with
  | refl s => exact fun hc => ⟨rfl, hc⟩
  | cons hstep hrest ih =>
      intro hc
      cases hstep with
      | readOk n rest k => simp at hc
      | readRetry rest k => simp at hc
      | readTerminal msg rest k hne => simp at hc
      | complete script k ph =>
          obtain ⟨h1, h2⟩ := ih hc
          refine ⟨?_, h2⟩
          simpa [sendCount, List.countP_cons] using h1
      | send script o => simp at hc

theorem Steps_sendCount_le_one {s s' : PumpState} {tr : List Ev}
    (h : Steps s tr s') : sendCount tr ≤ 1 := by
  induction h with
  | refl s => simp [sendCount]
  | cons hstep hrest ih =>
      cases hstep with
      | readOk n rest k => simpa [sendCount, List.countP_cons] using ih
      | readRetry rest k => simpa [sendCount, List.countP_cons] using ih
      | readTerminal msg rest k hne => simpa [sendCount, List.countP_cons] using ih
      | complete script k ph => simpa [sendCount, List.countP_cons] using ih
      | send script o =>
          have h0 := (Steps_from_closed hrest rfl).1
          have hcons : ∀ tr' : List Ev,
              sendCount (Ev.sendEv o :: tr') = sendCount tr' + 1 := by
            intro tr'
            simp [sendCount, List.countP_cons]
          rw [hcons, h0]

theorem Steps_reach_closed_send {s s' : PumpState} {tr : List Ev}
    (h : Steps s tr s') :
    s.phase ≠ Phase.closed → s'.phase = Phase.closed → 1 ≤ sendCount tr := by
  induction h with
  | refl s => exact fun hne hc => absurd hc hne
  | cons hstep hrest ih =>
      intro hne hc
      cases hstep with
      | readOk n rest k =>
          have := ih (by simp) hc
          simpa [sendCount, List.countP_cons] using this
      | readRetry rest k =>
          have := ih (by simp) hc
          simpa [sendCount, List.countP_cons] using this
      | readTerminal msg rest k hne₂ =>
          have := ih (by simp) hc
          simpa [sendCount, List.countP_cons] using this
      | complete script k ph =>
          have := ih (by simpa using hne) hc
          simpa [sendCount, List.countP_cons] using this
      | send script o =>
          simp [sendCount, List.countP_cons]

theorem Steps_append {s s'' : PumpState} {tr1 tr2 : List Ev}
    (h : Steps s (tr1 ++ tr2) s'') :
    ∃ s1, Steps s tr1 s1 ∧ Steps s1 tr2 s'' := by
  induction tr1 generalizing s with
  | nil => exact ⟨s, Steps.refl s, h⟩
  | cons e tr ih =>
      rw [List.cons_append] at h
      cases h with
      | cons hstep hrest =>
          obtain ⟨s1, ha, hb⟩ := ih hrest
          exact ⟨s1, Steps.cons hstep ha, hb⟩

/-- C1: along every execution of the channel from its initial state, the
completion signal is sent on `errChan` at most once; if the pump has
reached its terminal state, it was sent exactly once; and at the moment
of any send, every previously spawned dispatch unit of work has
completed (the spawn and completion counts of the prefix agree, i.e.
`callbacksWG` is at zero). -/
theorem pump_completion_once_after_quiescence (script : List ReadResult)
    (tr : List Ev) (s' : PumpState)
    (hrun : Steps (initPumpState script) tr s') :
    sendCount tr ≤ 1 ∧
    (s'.phase = Phase.closed → sendCount tr = 1) ∧
    (∀ tr1 o tr2, tr = tr1 ++ Ev.sendEv o :: tr2 →
        spawnCount tr1 = completeCount tr1) := by
  refine ⟨Steps_sendCount_le_one hrun, ?_, ?_⟩
  · intro hc
    have h1 := Steps_sendCount_le_one hrun
    have h2 := Steps_reach_closed_send hrun (by simp [initPumpState]) hc
    omega
  · intro tr1 o tr2 heq
    subst heq
    obtain ⟨s1, ha, hb⟩ := Steps_append hrun
    cases hb with
    | cons hstep hrest =>
        cases hstep with
        | send scr o =>
            have hcnt := Steps_inFlight_count ha
            simp [initPumpState] at hcnt
            omega

/-- Witness for C1: the execution that reads one frame, sees the
descriptor closed, lets the dispatch unit finish, and sends the graceful
outcome. -/
theorem pump_completion_once_after_quiescence_witness :
    sendCount [Ev.spawnEv, Ev.internalEv, Ev.completeEv, Ev.sendEv none] ≤ 1 ∧
    ((⟨[], 0, Phase.closed⟩ : PumpState).phase = Phase.closed →
      sendCount [Ev.spawnEv, Ev.internalEv, Ev.completeEv, Ev.sendEv none] = 1) ∧
    (∀ tr1 o tr2,
        [Ev.spawnEv, Ev.internalEv, Ev.completeEv, Ev.sendEv none] =
          tr1 ++ Ev.sendEv o :: tr2 →
        spawnCount tr1 = completeCount tr1) := by
  have hterm := Step.readTerminal "no such device" [] 1 (by decide)
  rw [show outcomeOf "no such device" = none by decide] at hterm
  exact pump_completion_once_after_quiescence
    [ReadResult.ok 48, ReadResult.fail "no such device"] _ _
    (Steps.cons (Step.readOk 48 [ReadResult.fail "no such device"] 0)
      (Steps.cons hterm
        (Steps.cons (Step.complete [] 0 (Phase.draining none))
          (Steps.cons (Step.send [] none) (Steps.refl _)))))

end Fission






